/- Verification of the bikeshare exploration script (bikeshare_2.py).

The script loads a per-city table of trips, derives month / weekday-name /
hour columns from the start timestamp, filters by optional month and weekday,
and computes descriptive statistics.  Below, pandas data frames are embedded
as Lean lists of trip records; pandas `Series.mode` is embedded as the
ascending-sorted list of the values of maximal multiplicity, `value_counts`
as the count table sorted by descending count, and Python string case
operations are embedded character by character over ASCII. -/
import Mathlib

set_option maxHeartbeats 1000000

/-! ## ASCII case operations (Python `str.lower` / `str.title` on ASCII) -/

/-- Lower-case an ASCII character, as Python `str.lower` does on ASCII text. -/
def asciiLower (c : Char) : Char :=
  if h : 65 ≤ c.toNat ∧ c.toNat ≤ 90 then
    Char.ofNatAux (c.toNat + 32) (Or.inl (by omega))
  else c

/-- Upper-case an ASCII character, as Python `str.upper` does on ASCII text. -/
def asciiUpper (c : Char) : Char :=
  if h : 97 ≤ c.toNat ∧ c.toNat ≤ 122 then
    Char.ofNatAux (c.toNat - 32) (Or.inl (by omega))
  else c

/-- ASCII letter test (Python `str.isalpha` restricted to ASCII). -/
def isAsciiAlpha (c : Char) : Bool :=
  decide ((65 ≤ c.toNat ∧ c.toNat ≤ 90) ∨ (97 ≤ c.toNat ∧ c.toNat ≤ 122))

theorem toNat_asciiLower (c : Char) :
    (asciiLower c).toNat = if 65 ≤ c.toNat ∧ c.toNat ≤ 90 then c.toNat + 32 else c.toNat := by
  unfold asciiLower
  split <;> rfl

theorem toNat_asciiUpper (c : Char) :
    (asciiUpper c).toNat = if 97 ≤ c.toNat ∧ c.toNat ≤ 122 then c.toNat - 32 else c.toNat := by
  unfold asciiUpper
  split <;> rfl

theorem char_eq_of_toNat_eq {a b : Char} (h : a.toNat = b.toNat) : a = b := by
  rw [← Char.ofNat_toNat a, ← Char.ofNat_toNat b, h]

theorem asciiLower_asciiLower (c : Char) : asciiLower (asciiLower c) = asciiLower c := by
  apply char_eq_of_toNat_eq
  simp only [toNat_asciiLower]
  split_ifs <;> omega

theorem asciiUpper_asciiLower (c : Char) : asciiUpper (asciiLower c) = asciiUpper c := by
  apply char_eq_of_toNat_eq
  simp only [toNat_asciiUpper, toNat_asciiLower]
  split_ifs <;> omega

theorem asciiLower_asciiLower_eq (c : Char) :
    asciiLower (asciiLower c) = asciiLower c := asciiLower_asciiLower c

theorem isAsciiAlpha_asciiLower (c : Char) : isAsciiAlpha (asciiLower c) = isAsciiAlpha c := by
  unfold isAsciiAlpha
  rw [toNat_asciiLower]
  split <;> rename_i h
  · simp only [decide_eq_decide]; omega
  · rfl

/-! ## String-level case operations -/

/-- Python `s.lower()` on an ASCII string. -/
def lowerStr (s : String) : String := ⟨s.data.map asciiLower⟩

/-- One pass of Python `str.title`: the Boolean records whether the previous
character was a letter; a letter following a non-letter is upper-cased and
every other letter is lower-cased. -/
def titleChars : Bool → List Char → List Char
  | _, [] => []
  | prev, c :: cs =>
    (if prev then asciiLower c else asciiUpper c) :: titleChars (isAsciiAlpha c) cs

/-- Python `s.title()` on an ASCII string. -/
def strTitle (s : String) : String := ⟨titleChars false s.data⟩

theorem titleChars_map_asciiLower (b : Bool) (l : List Char) :
    titleChars b (l.map asciiLower) = titleChars b l := by
  induction l generalizing b with
  | nil => rfl
  | cons c cs ih =>
    simp only [List.map_cons, titleChars, asciiUpper_asciiLower, asciiLower_asciiLower,
      isAsciiAlpha_asciiLower, ih]

theorem strTitle_lowerStr (s : String) : strTitle (lowerStr s) = strTitle s := by
  unfold strTitle lowerStr
  simp only [titleChars_map_asciiLower]

theorem lowerStr_lowerStr (s : String) : lowerStr (lowerStr s) = lowerStr s := by
  unfold lowerStr
  simp only [List.map_map]
  congr 1
  apply List.map_congr_left
  intro c _
  exact asciiLower_asciiLower c

theorem lowerStr_eq_empty_iff (s : String) : lowerStr s = "" ↔ s = "" := by
  unfold lowerStr
  constructor
  · intro h
    have hd : s.data.map asciiLower = "".data := congrArg String.data h
    simp only [String.data] at hd
    have : s.data = [] := by
      cases hs : s.data with
      | nil => rfl
      | cons c cs => rw [hs] at hd; simp at hd
    cases s; simp_all
  · intro h; rw [h]; rfl

/-! ## Mode of a column (pandas `Series.mode`): the values of maximal
multiplicity, listed in ascending order.  Sorting is parameterized by an
executable Boolean comparator so that column types choose their order:
numeric order for the numeric columns, lexicographic order for strings. -/

/-- Numeric comparator (pandas ascending sort of a numeric column). -/
def natLeB (a b : Nat) : Bool := decide (a ≤ b)

/-- Lexicographic comparator on character lists by code point. -/
def charsLeB : List Char → List Char → Bool
  | [], _ => true
  | _ :: _, [] => false
  | a :: as, b :: bs =>
    if a.toNat < b.toNat then true
    else if b.toNat < a.toNat then false
    else charsLeB as bs

/-- Lexicographic comparator on strings (pandas ascending sort of a string
column). -/
def strLeB (a b : String) : Bool := charsLeB a.data b.data

/-- The maximal multiplicity of any value of the list. -/
def countMax {α : Type} [DecidableEq α] (l : List α) : Nat :=
  (l.map (fun v => l.count v)).foldr max 0

/-- Embedding of pandas `Series.mode`: all values of maximal multiplicity,
sorted ascending by the comparator. -/
def modeListBy {α : Type} [DecidableEq α] (leB : α → α → Bool) (l : List α) : List α :=
  List.insertionSort (fun a b => leB a b = true)
    (l.dedup.filter (fun v => l.count v == countMax l))

/-- Embedding of `Series.mode().values[0]` (`none` when the column is empty). -/
def mode_first {α : Type} [DecidableEq α] (leB : α → α → Bool) (l : List α) : Option α :=
  (modeListBy leB l).head?

theorem le_foldr_max {l : List Nat} {a : Nat} (h : a ∈ l) : a ≤ l.foldr max 0 := by
  induction l with
  | nil => cases h
  | cons b t ih =>
    rcases List.mem_cons.mp h with rfl | h2
    · exact le_max_left _ _
    · exact le_trans (ih h2) (le_max_right _ _)

theorem foldr_max_mem {l : List Nat} (h : l ≠ []) : l.foldr max 0 ∈ l := by
  induction l with
  | nil => exact absurd rfl h
  | cons b t ih =>
    simp only [List.foldr_cons]
    cases t with
    | nil => simp
    | cons c u =>
      rcases le_total (List.foldr max 0 (c :: u)) b with hle | hle
      · rw [max_eq_left hle]
        exact List.mem_cons_self _ _
      · rw [max_eq_right hle]
        exact List.mem_cons_of_mem _ (ih (by simp))

theorem count_le_countMax {α : Type} [DecidableEq α] (l : List α) (v : α) :
    l.count v ≤ countMax l := by
  by_cases h : v ∈ l
  · exact le_foldr_max (List.mem_map_of_mem _ h)
  · rw [List.count_eq_zero.mpr h]; exact Nat.zero_le _

theorem countMax_attained {α : Type} [DecidableEq α] {l : List α} (h : l ≠ []) :
    ∃ v ∈ l, l.count v = countMax l := by
  have hmem : countMax l ∈ l.map (fun v => l.count v) := by
    apply foldr_max_mem
    simpa using h
  rcases List.mem_map.mp hmem with ⟨v, hv, he⟩
  exact ⟨v, hv, he⟩

theorem mem_modeListBy {α : Type} [DecidableEq α] {leB : α → α → Bool} {l : List α} {v : α} :
    v ∈ modeListBy leB l ↔ v ∈ l ∧ l.count v = countMax l := by
  unfold modeListBy
  rw [List.mem_insertionSort, List.mem_filter, List.mem_dedup]
  simp only [beq_iff_eq]

theorem modeListBy_sorted {α : Type} [DecidableEq α] {leB : α → α → Bool}
    (htot : ∀ a b, leB a b = true ∨ leB b a = true)
    (htr : ∀ a b c, leB a b = true → leB b c = true → leB a c = true) (l : List α) :
    (modeListBy leB l).Sorted (fun a b => leB a b = true) := by
  haveI : IsTotal α (fun a b => leB a b = true) := ⟨htot⟩
  haveI : IsTrans α (fun a b => leB a b = true) := ⟨htr⟩
  exact List.sorted_insertionSort _ _

theorem modeListBy_ne_nil {α : Type} [DecidableEq α] {leB : α → α → Bool} {l : List α}
    (h : l ≠ []) : modeListBy leB l ≠ [] := by
  rcases countMax_attained h with ⟨v, hv, he⟩
  intro hnil
  have hm : v ∈ modeListBy leB l := mem_modeListBy.mpr ⟨hv, he⟩
  rw [hnil] at hm
  cases hm

theorem mode_first_spec {α : Type} [DecidableEq α] {leB : α → α → Bool} {l : List α}
    (htot : ∀ a b, leB a b = true ∨ leB b a = true)
    (htr : ∀ a b c, leB a b = true → leB b c = true → leB a c = true)
    (h : l ≠ []) :
    ∃ v, mode_first leB l = some v ∧ v ∈ l ∧ (∀ w, l.count w ≤ l.count v) ∧
      ∀ u ∈ modeListBy leB l, leB v u = true := by
  unfold mode_first
  cases hm : modeListBy leB l with
  | nil => exact absurd hm (modeListBy_ne_nil h)
  | cons a t =>
    have ha : a ∈ modeListBy leB l := by rw [hm]; exact List.mem_cons_self a t
    have ha2 := mem_modeListBy.mp ha
    refine ⟨a, rfl, ha2.1, ?_, ?_⟩
    · intro w
      rw [ha2.2]
      exact count_le_countMax l w
    · intro u hu
      have hs := modeListBy_sorted htot htr l
      rw [hm] at hs
      rcases List.mem_cons.mp hu with rfl | hu2
      · rcases htot u u with h2 | h2 <;> exact h2
      · exact List.rel_of_sorted_cons hs u hu2

theorem natLeB_total : ∀ a b : Nat, natLeB a b = true ∨ natLeB b a = true := by
  intro a b
  unfold natLeB
  rcases Nat.le_total a b with h | h
  · left; exact decide_eq_true h
  · right; exact decide_eq_true h

theorem natLeB_trans : ∀ a b c : Nat, natLeB a b = true → natLeB b c = true →
    natLeB a c = true := by
  intro a b c h1 h2
  unfold natLeB at h1 h2 ⊢
  exact decide_eq_true (Nat.le_trans (of_decide_eq_true h1) (of_decide_eq_true h2))

theorem charsLeB_total : ∀ a b : List Char, charsLeB a b = true ∨ charsLeB b a = true := by
  intro a
  induction a with
  | nil => intro b; left; rfl
  | cons x xs ih =>
    intro b
    cases b with
    | nil => right; rfl
    | cons y ys =>
      unfold charsLeB
      rcases Nat.lt_trichotomy x.toNat y.toNat with h | h | h
      · left; rw [if_pos h]
      · rw [if_neg (by omega), if_neg (by omega), if_neg (by omega), if_neg (by omega)]
        exact ih ys
      · right; rw [if_pos h]

theorem charsLeB_trans : ∀ a b c : List Char, charsLeB a b = true → charsLeB b c = true →
    charsLeB a c = true := by
  intro a
  induction a with
  | nil => intro b c _ _; rfl
  | cons x xs ih =>
    intro b c h1 h2
    cases b with
    | nil => exact absurd h1 (by simp [charsLeB])
    | cons y ys =>
      cases c with
      | nil => exact absurd h2 (by simp [charsLeB])
      | cons z zs =>
        unfold charsLeB at h1 h2 ⊢
        by_cases hxy : x.toNat < y.toNat
        · by_cases hyz : y.toNat < z.toNat
          · rw [if_pos (by omega)]
          · rw [if_neg hyz] at h2
            by_cases hzy : z.toNat < y.toNat
            · rw [if_pos hzy] at h2; cases h2
            · rw [if_pos (by omega)]
        · rw [if_neg hxy] at h1
          by_cases hyx : y.toNat < x.toNat
          · rw [if_pos hyx] at h1; cases h1
          · rw [if_neg hyx] at h1
            by_cases hyz : y.toNat < z.toNat
            · rw [if_pos (by omega)]
            · rw [if_neg hyz] at h2
              by_cases hzy : z.toNat < y.toNat
              · rw [if_pos hzy] at h2; cases h2
              · rw [if_neg hzy] at h2
                rw [if_neg (by omega), if_neg (by omega)]
                exact ih ys zs h1 h2

theorem strLeB_total : ∀ a b : String, strLeB a b = true ∨ strLeB b a = true := by
  intro a b
  exact charsLeB_total a.data b.data

theorem strLeB_trans : ∀ a b c : String, strLeB a b = true → strLeB b c = true →
    strLeB a c = true := by
  intro a b c
  exact charsLeB_trans a.data b.data c.data

/-! ## Data model: one row of a city table -/

/-- A parsed start/end timestamp (`pd.to_datetime` result). -/
structure Timestamp where
  year : Nat
  month : Nat
  day : Nat
  hour : Nat
  minute : Nat
deriving DecidableEq

/-- One row of a city CSV as read: the columns of the trip-record source.
Gender and birth year are absent (`none`) for the city whose table lacks
those columns. -/
structure RawTrip where
  startTime : Timestamp
  endTime : Timestamp
  tripDuration : Nat
  startStation : String
  endStation : String
  userType : String
  gender : Option String
  birthYear : Option Nat
deriving DecidableEq

/-- A row after `load_data` added the derived `month`, `day_of_week`, `hour`
columns. -/
structure Trip extends RawTrip where
  month : Nat
  day_of_week : String
  hour : Nat
deriving DecidableEq

/-- Python exception kinds the script can raise, plus the `emptyDataset`
kind that the specification's error taxonomy asks for (the script itself
never raises it). -/
inductive PyError where
  | keyError
  | indexError
  | valueError
  | emptyDataset
deriving DecidableEq

/-- `dt.day_name()` weekday names indexed by Zeller's congruence
(0 = Saturday). -/
def dayNames : List String :=
  ["Saturday", "Sunday", "Monday", "Tuesday", "Wednesday", "Thursday", "Friday"]

/-- Zeller's congruence: weekday index of a Gregorian date, 0 = Saturday. -/
def zellerDay (y m d : Nat) : Nat :=
  let y2 := if m ≤ 2 then y - 1 else y
  let m2 := if m ≤ 2 then m + 12 else m
  let k := y2 % 100
  let j := y2 / 100
  (d + 13 * (m2 + 1) / 5 + k + k / 4 + j / 4 + 5 * j) % 7

/-- Embedding of `Start Time -> dt.day_name()`. -/
def dayName (t : Timestamp) : String :=
  dayNames.getD (zellerDay t.year t.month t.day) ""

/-- Embedding of `calendar.month_name[m]`. -/
def month_name (m : Nat) : String :=
  ["", "January", "February", "March", "April", "May", "June", "July", "August",
    "September", "October", "November", "December"].getD m ""

/-! ## Data Loader (`load_data`, lines 95-116) -/

/-- The `CITY_DATA` dictionary of the script. -/
def CITY_DATA : List (String × String) :=
  [("chicago", "chicago.csv"), ("new york", "new_york_city.csv"),
    ("washington", "washington.csv")]

/-- Adding the derived columns `month`, `day_of_week` and `hour` from the
parsed start timestamp (lines 112-114). -/
def addDerived (r : RawTrip) : Trip :=
  { toRawTrip := r
    month := r.startTime.month
    day_of_week := dayName r.startTime
    hour := r.startTime.hour }

/-- `load_data`.  The environment maps a CSV file name to its parsed rows
(`pd.read_csv` + `pd.to_datetime`); `CITY_DATA[city]` on an unknown key
raises `KeyError` before anything is read. -/
def load_data (env : String → List RawTrip) (city : String) :
    Except PyError (List Trip) :=
  match CITY_DATA.lookup city with
  | none => Except.error PyError.keyError
  | some fname => Except.ok ((env fname).map addDerived)

/-! ## Filter Engine (`filter_data`, lines 119-145) -/

/-- The `months` list of `filter_data` (line 134). -/
def monthsList : List String := ["january", "february", "march", "april", "may", "june"]

/-- `filter_data`: keep rows whose `month` column equals
`months.index(month) + 1` when a month name was given, then rows whose
`day_of_week` column equals `day.title()` when a day name was given.
An empty string is Python's falsy "no filter" value. -/
def filter_data (df : List Trip) (filters : String × String) : List Trip :=
  let month := filters.1
  let day := filters.2
  let df1 :=
    if month = "" then df
    else df.filter (fun r => r.month == monthsList.indexOf month + 1)
  if day = "" then df1
  else df1.filter (fun r => r.day_of_week == strTitle day)

/-! ## Time Stats (`time_stats`, lines 148-173) -/

/-- The values `time_stats` prints: the month and weekday lines are absent
when the corresponding filter already fixed them. -/
structure TimeStatsOut where
  monthReport : Option String
  dayReport : Option String
  hourReport : String
deriving DecidableEq

/-- The 12-hour rendering of `datetime.strftime('%I:%M %p')` applied to the
parsed `f"{hour}:00"` (lines 168-169). -/
def format12 (h : Nat) : String :=
  let h12 := if h % 12 = 0 then 12 else h % 12
  (if h12 < 10 then "0" ++ toString h12 else toString h12) ++ ":00 " ++
    (if h < 12 then "AM" else "PM")

/-- `time_stats`: `.mode().values[0]` on an empty column raises `IndexError`. -/
def time_stats (df : List Trip) (filters : String × String) :
    Except PyError TimeStatsOut :=
  let monthF := filters.1
  let dayF := filters.2
  let mrep : Except PyError (Option String) :=
    if monthF = "" then
      match mode_first natLeB (df.map (fun t => t.month)) with
      | none => Except.error PyError.indexError
      | some m => Except.ok (some (month_name m))
    else Except.ok none
  match mrep with
  | Except.error e => Except.error e
  | Except.ok mr =>
    let drep : Except PyError (Option String) :=
      if dayF = "" then
        match mode_first strLeB (df.map (fun t => t.day_of_week)) with
        | none => Except.error PyError.indexError
        | some d => Except.ok (some d)
      else Except.ok none
    match drep with
    | Except.error e => Except.error e
    | Except.ok dr =>
      match mode_first natLeB (df.map (fun t => t.hour)) with
      | none => Except.error PyError.indexError
      | some h => Except.ok ⟨mr, dr, format12 h⟩

/-! ## Station Stats (`station_stats`, lines 176-195) -/

/-- The values `station_stats` prints.  The start and end reports print the
whole `.mode().values` array; the trip line prints row 0 of
`df[['Start Station', 'End Station']].mode()`, which pandas computes
column by column. -/
structure StationStatsOut where
  startReport : List String
  endReport : List String
  tripReport : String × String
deriving DecidableEq

/-- `station_stats`: the two station lines print the full mode array of each
column; the trip line takes `.values[0]` of the per-column data-frame mode,
i.e. the first (smallest) mode of each column independently, and raises
`IndexError` on an empty table. -/
def station_stats (df : List Trip) : Except PyError StationStatsOut :=
  match (modeListBy strLeB (df.map (fun t => t.startStation))).head?,
      (modeListBy strLeB (df.map (fun t => t.endStation))).head? with
  | some s, some e =>
    Except.ok ⟨modeListBy strLeB (df.map (fun t => t.startStation)),
      modeListBy strLeB (df.map (fun t => t.endStation)), (s, e)⟩
  | _, _ => Except.error PyError.indexError

/-! ## Duration Stats (`trip_duration_stats`, lines 198-213) -/

/-- The two `timedelta(seconds=int(...))` arguments `trip_duration_stats`
prints. -/
structure DurationStatsOut where
  totalSeconds : Int
  meanSeconds : Int
deriving DecidableEq

/-- Python `int()` on an exact rational: truncation toward zero. -/
def pyInt (q : Rat) : Int := if 0 ≤ q then Int.floor q else -Int.floor (-q)

/-- `trip_duration_stats`: the sum of an empty integer column is `0`, but its
mean is NaN and `int(NaN)` raises `ValueError`. -/
def trip_duration_stats (df : List Trip) : Except PyError DurationStatsOut :=
  let total : Nat := (df.map (fun t => t.tripDuration)).sum
  match df with
  | [] => Except.error PyError.valueError
  | _ :: _ =>
    let mean : Rat := (total : Rat) / (df.length : Rat)
    Except.ok ⟨(total : Int), pyInt mean⟩

/-! ## User Stats (`user_stats`, lines 216-234) -/

/-- Embedding of pandas `Series.value_counts()` (with NaN values dropped
before counting, as pandas does): distinct values with their counts, sorted
by descending count. -/
def value_counts {α : Type} [DecidableEq α] (l : List α) : List (α × Nat) :=
  List.insertionSort (fun a b => b.2 ≤ a.2) (l.dedup.map (fun v => (v, l.count v)))

/-- The breakdowns `user_stats` prints; the gender table is absent when the
city is not in `['chicago', 'new york']`. -/
structure UserStatsOut where
  typeCounts : List (String × Nat)
  genderCounts : Option (List (String × Nat))
deriving DecidableEq

/-- `user_stats`: user-type counts always, gender counts only for the two
cities listed on line 229. -/
def user_stats (df : List Trip) (city : String) : UserStatsOut :=
  { typeCounts := value_counts (df.map (fun t => t.userType))
    genderCounts :=
      if city = "chicago" ∨ city = "new york" then
        some (value_counts (df.filterMap (fun t => t.gender)))
      else none }

/-! ## Row Viewer (`display_data`, lines 237-246) -/

/-- `df.iloc[c:c+5]`: the up-to-5 rows at offset `c`. -/
def iloc_page (df : List Trip) (c : Nat) : List Trip := (df.drop c).take 5

/-- One "show next page" request: the page at the current offset, and the
offset advanced by 5. -/
def viewer_step (df : List Trip) (c : Nat) : List Trip × Nat :=
  (iloc_page df c, c + 5)

/-- All pages the viewer returns before the first empty page, starting at
offset `c`. -/
def viewer_pages (df : List Trip) (c : Nat) : List (List Trip) :=
  if df.length ≤ c then []
  else iloc_page df c :: viewer_pages df (c + 5)
termination_by df.length - c
decreasing_by omega

/-! ## Interactive driver input validation (`get_filters`, lines 79-89) -/

/-- The weekday allow-list of `get_filters` (line 84): `saturday` is missing. -/
def dayAllowList : List String :=
  ["monday", "tuesday", "wednesday", "thursday", "friday", "sunday"]

/-- The driver accepts a day answer iff `day.lower()` is in the allow-list. -/
def day_accepted (s : String) : Bool := dayAllowList.contains (lowerStr s)

/-! ## Concrete fixtures used to instantiate the claims -/

/-- Monday, January 2nd 2017, 09:00. -/
def ts0 : Timestamp := ⟨2017, 1, 2, 9, 0⟩

/-- Monday, March 6th 2017, 14:00. -/
def tsMar : Timestamp := ⟨2017, 3, 6, 14, 0⟩

/-- A raw row fixture. -/
def mkRaw (ts : Timestamp) (s e : String) (dur : Nat) (u : String)
    (g : Option String) : RawTrip :=
  ⟨ts, ts, dur, s, e, u, g, none⟩

/-- A loaded-row fixture. -/
def mkTrip (ts : Timestamp) (s e : String) : Trip :=
  addDerived (mkRaw ts s e 100 "Subscriber" (some "Male"))

/-- Five trips whose start-station and end-station modes are each tied, in a
way that separates per-column modes from the joint pair mode. -/
def dfJoint : List Trip :=
  [mkTrip ts0 "A" "Y", mkTrip ts0 "A" "Y", mkTrip ts0 "B" "X",
    mkTrip ts0 "C" "X", mkTrip ts0 "B" "Z"]

/-- Two trips with distinct start stations (a start-station tie). -/
def dfTie : List Trip := [mkTrip ts0 "A" "X", mkTrip ts0 "B" "X"]

/-- Three trips with durations 10, 20 and 30 seconds. -/
def dfDur : List Trip :=
  [addDerived (mkRaw ts0 "A" "X" 10 "Subscriber" none),
    addDerived (mkRaw ts0 "A" "X" 20 "Subscriber" none),
    addDerived (mkRaw ts0 "A" "X" 30 "Subscriber" none)]

/-- Six pairwise distinct trips (a table one row past the page size). -/
def dfSix : List Trip :=
  [mkTrip ts0 "S1" "E1", mkTrip ts0 "S2" "E2", mkTrip ts0 "S3" "E3",
    mkTrip ts0 "S4" "E4", mkTrip ts0 "S5" "E5", mkTrip ts0 "S6" "E6"]

/-- Two January trips and one March trip, all on Mondays. -/
def dfMix : List Trip :=
  [mkTrip ts0 "A" "X", mkTrip ts0 "B" "Y", mkTrip tsMar "C" "Z"]

/-! ## C1 -/

/-- C1: the claim says the most common (start, end) trip is computed as a
joint key, i.e. the reported pair occurs as a row and has maximal joint
frequency.  The code (line 191) instead takes row 0 of the per-column
`DataFrame.mode()`: on `dfJoint` it reports `("A", "X")`, a pair that occurs
in no row at all, while the true joint mode `("A", "Y")` occurs twice. -/
theorem c1_trip_pair_is_per_column_modes :
    station_stats dfJoint = Except.ok ⟨["A", "B"], ["X", "Y"], ("A", "X")⟩ ∧
    (dfJoint.map (fun t => (t.startStation, t.endStation))).count ("A", "X") = 0 ∧
    (dfJoint.map (fun t => (t.startStation, t.endStation))).count ("A", "Y") = 2 ∧
    countMax (dfJoint.map (fun t => (t.startStation, t.endStation))) = 2 :=
  ⟨by rfl, by decide, by decide, by decide⟩

/-! ## C2 -/

/-- C2 counterexample: on a table whose two rows have distinct start
stations, the start-station line of `station_stats` reports the whole
two-element mode array, not a single station name. -/
theorem c2_counterexample_tie_reports_array :
    station_stats dfTie = Except.ok ⟨["A", "B"], ["X"], ("A", "X")⟩ ∧
    (["A", "B"] : List String).length ≠ 1 :=
  ⟨by rfl, by decide⟩

/-- Multiplicity is maximal exactly when it equals `countMax`. -/
theorem count_eq_countMax_iff {α : Type} [DecidableEq α] {l : List α} (h : l ≠ [])
    {v : α} :
    l.count v = countMax l ↔ ∀ w, l.count w ≤ l.count v := by
  constructor
  · intro he w
    rw [he]
    exact count_le_countMax l w
  · intro hmax
    rcases countMax_attained h with ⟨v0, _, he0⟩
    exact Nat.le_antisymm (count_le_countMax l v) (he0 ▸ hmax v0)

/-- C2 (amended): for a non-empty table, the start and end station lines
each report the full ascending-sorted list of every station name of maximal
frequency (a single name exactly when the mode is unique), and the trip line
pairs the lexicographically smallest tied start-station mode with the
smallest tied end-station mode. -/
theorem c2_amended_station_reports (df : List Trip) (h : df ≠ []) :
    ∃ out, station_stats df = Except.ok out ∧
      out.startReport ≠ [] ∧
      out.startReport.Sorted (fun a b => strLeB a b = true) ∧
      (∀ v, v ∈ out.startReport ↔ v ∈ df.map (fun t => t.startStation) ∧
        ∀ w, (df.map (fun t => t.startStation)).count w ≤
          (df.map (fun t => t.startStation)).count v) ∧
      out.endReport ≠ [] ∧
      out.endReport.Sorted (fun a b => strLeB a b = true) ∧
      (∀ v, v ∈ out.endReport ↔ v ∈ df.map (fun t => t.endStation) ∧
        ∀ w, (df.map (fun t => t.endStation)).count w ≤
          (df.map (fun t => t.endStation)).count v) ∧
      out.tripReport.1 ∈ out.startReport ∧
      (∀ v ∈ out.startReport, strLeB out.tripReport.1 v = true) ∧
      out.tripReport.2 ∈ out.endReport ∧
      (∀ v ∈ out.endReport, strLeB out.tripReport.2 v = true) := by
  have hs : df.map (fun t => t.startStation) ≠ [] := by
    intro he; exact h (List.map_eq_nil_iff.mp he)
  have hen : df.map (fun t => t.endStation) ≠ [] := by
    intro he; exact h (List.map_eq_nil_iff.mp he)
  rcases mode_first_spec strLeB_total strLeB_trans hs with ⟨s, hsh, hsm, _, hsmin⟩
  rcases mode_first_spec strLeB_total strLeB_trans hen with ⟨e, heh, hem, _, hemin⟩
  unfold mode_first at hsh heh
  refine ⟨⟨modeListBy strLeB (df.map (fun t => t.startStation)),
    modeListBy strLeB (df.map (fun t => t.endStation)), (s, e)⟩, ?_, ?_, ?_, ?_, ?_, ?_, ?_,
    ?_, ?_, ?_, ?_⟩
  · unfold station_stats
    rw [hsh, heh]
  · exact modeListBy_ne_nil hs
  · exact modeListBy_sorted strLeB_total strLeB_trans _
  · intro v
    rw [mem_modeListBy]
    exact and_congr_right (fun hv => count_eq_countMax_iff hs)
  · exact modeListBy_ne_nil hen
  · exact modeListBy_sorted strLeB_total strLeB_trans _
  · intro v
    rw [mem_modeListBy]
    exact and_congr_right (fun hv => count_eq_countMax_iff hen)
  · exact List.mem_of_mem_head? hsh
  · exact hsmin
  · exact List.mem_of_mem_head? heh
  · exact hemin

/-- C2 amended-claim witness at the concrete tied table. -/
theorem c2_amended_station_reports_witness :
    dfTie ≠ [] ∧
    ∃ out, station_stats dfTie = Except.ok out ∧
      out.startReport ≠ [] ∧
      out.startReport.Sorted (fun a b => strLeB a b = true) ∧
      (∀ v, v ∈ out.startReport ↔ v ∈ dfTie.map (fun t => t.startStation) ∧
        ∀ w, (dfTie.map (fun t => t.startStation)).count w ≤
          (dfTie.map (fun t => t.startStation)).count v) ∧
      out.endReport ≠ [] ∧
      out.endReport.Sorted (fun a b => strLeB a b = true) ∧
      (∀ v, v ∈ out.endReport ↔ v ∈ dfTie.map (fun t => t.endStation) ∧
        ∀ w, (dfTie.map (fun t => t.endStation)).count w ≤
          (dfTie.map (fun t => t.endStation)).count v) ∧
      out.tripReport.1 ∈ out.startReport ∧
      (∀ v ∈ out.startReport, strLeB out.tripReport.1 v = true) ∧
      out.tripReport.2 ∈ out.endReport ∧
      (∀ v ∈ out.endReport, strLeB out.tripReport.2 v = true) :=
  ⟨by decide, c2_amended_station_reports dfTie (by decide)⟩

/-! ## C4 -/

/-- C4 counterexample: on the zero-row table, `time_stats` fails with the
`IndexError` of `.mode().values[0]` and `trip_duration_stats` fails with the
`ValueError` of `int(NaN)` — neither is the explicit `EmptyDataset` error
(nor any non-error "no data" result) the claim requires. -/
theorem c4_counterexample_empty_crashes :
    time_stats ([] : List Trip) ("", "") = Except.error PyError.indexError ∧
    trip_duration_stats ([] : List Trip) = Except.error PyError.valueError ∧
    PyError.indexError ≠ PyError.emptyDataset ∧
    PyError.valueError ≠ PyError.emptyDataset :=
  ⟨by rfl, by rfl, by decide, by decide⟩

/-- C4 (amended): on the zero-row table, whatever the filters were, the
Time Stats aggregator crashes with an uncaught `IndexError` (first empty
mode access) and the Duration Stats aggregator crashes with an uncaught
`ValueError` (`int(NaN)` on the empty mean); neither surfaces an explicit
`EmptyDataset` error or "no data" result. -/
theorem c4_amended_empty_crashes (monthF dayF : String) :
    time_stats ([] : List Trip) (monthF, dayF) = Except.error PyError.indexError ∧
    trip_duration_stats ([] : List Trip) = Except.error PyError.valueError := by
  constructor
  · unfold time_stats
    by_cases hm : monthF = "" <;> by_cases hd : dayF = "" <;>
      simp [hm, hd, mode_first, modeListBy, countMax]
  · rfl

/-! ## C5 -/

/-- The pages starting at offset `c` concatenate to the rows from offset
`c` on. -/
theorem viewer_pages_join (df : List Trip) :
    ∀ n c, df.length - c ≤ n → (viewer_pages df c).flatten = df.drop c := by
  intro n
  induction n with
  | zero =>
    intro c h
    rw [viewer_pages, if_pos (by omega)]
    rw [List.drop_eq_nil_of_le (by omega)]
    rfl
  | succ n ih =>
    intro c h
    rw [viewer_pages]
    by_cases hc : df.length ≤ c
    · rw [if_pos hc, List.drop_eq_nil_of_le hc]
      rfl
    · rw [if_neg hc]
      rw [List.flatten_cons, ih (c + 5) (by omega)]
      unfold iloc_page
      rw [← List.drop_drop]
      exact List.take_append_drop 5 (df.drop c)

/-- C5: each request returns the up-to-5 rows at the current offset and
advances the offset by 5; a request past the end returns the empty page; and
the pages returned before the first empty page concatenate to exactly the
whole table. -/
theorem c5_row_viewer_pagination (df : List Trip) (c : Nat) :
    viewer_step df c = ((df.drop c).take 5, c + 5) ∧
    (df.length ≤ c → iloc_page df c = []) ∧
    (viewer_pages df 0).flatten = df := by
  refine ⟨rfl, ?_, ?_⟩
  · intro h
    unfold iloc_page
    rw [List.drop_eq_nil_of_le h]
    rfl
  · rw [viewer_pages_join df df.length 0 (by omega)]
    rfl

/-- C5 witness on a six-row table (one row past the page size). -/
theorem c5_row_viewer_pagination_witness :
    dfSix.length ≤ 10 ∧ iloc_page dfSix 10 = [] ∧
    viewer_step dfSix 5 = ((dfSix.drop 5).take 5, 10) ∧
    (viewer_pages dfSix 0).flatten = dfSix :=
  ⟨by decide, (c5_row_viewer_pagination dfSix 10).2.1 (by decide),
    (c5_row_viewer_pagination dfSix 5).1, (c5_row_viewer_pagination dfSix 0).2.2⟩

/-! ## C6 -/

/-- For a non-empty table, Duration Stats returns the integer column sum and
the floor of the rational mean. -/
theorem duration_stats_spec (df : List Trip) (h : df ≠ []) :
    ∃ m : Int,
      trip_duration_stats df =
        Except.ok ⟨(((df.map (fun t => t.tripDuration)).sum : Nat) : Int), m⟩ ∧
      (m : Rat) ≤ (((df.map (fun t => t.tripDuration)).sum : Nat) : Rat) / (df.length : Rat) ∧
      (((df.map (fun t => t.tripDuration)).sum : Nat) : Rat) / (df.length : Rat) <
        (m : Rat) + 1 := by
  match df, h with
  | t :: ts, _ =>
    set q : Rat :=
      ((((t :: ts).map (fun t => t.tripDuration)).sum : Nat) : Rat) /
        (((t :: ts).length : Nat) : Rat) with hq
    have hq0 : 0 ≤ q := by
      rw [hq]
      positivity
    refine ⟨pyInt q, ?_, ?_, ?_⟩
    · unfold trip_duration_stats
      rfl
    · rw [pyInt, if_pos hq0]
      exact Int.floor_le q
    · rw [pyInt, if_pos hq0]
      have := Int.lt_floor_add_one q
      push_cast at this ⊢
      exact this

/-- C6: for a non-empty table, Duration Stats reports the exact integer sum
of the duration column and the rational mean truncated to whole seconds
(the reported mean `m` satisfies `m ≤ mean < m + 1`); on durations
`[10, 20, 30]` it reports sum 60 and mean exactly 20. -/
theorem c6_duration_sum_and_truncated_mean :
    (∀ df : List Trip, df ≠ [] →
      ∃ m : Int,
        trip_duration_stats df =
          Except.ok ⟨(((df.map (fun t => t.tripDuration)).sum : Nat) : Int), m⟩ ∧
        (m : Rat) ≤ (((df.map (fun t => t.tripDuration)).sum : Nat) : Rat) / (df.length : Rat) ∧
        (((df.map (fun t => t.tripDuration)).sum : Nat) : Rat) / (df.length : Rat) <
          (m : Rat) + 1) ∧
    trip_duration_stats dfDur = Except.ok ⟨60, 20⟩ := by
  constructor
  · exact duration_stats_spec
  · rcases duration_stats_spec dfDur (by decide) with ⟨m, he, h1, h2⟩
    have hsum : ((dfDur.map (fun t => t.tripDuration)).sum : Nat) = 60 := by decide
    have hlen : dfDur.length = 3 := by decide
    rw [hsum] at he h1 h2
    rw [hlen] at h1 h2
    have a1 : m ≤ 20 := by
      have : (m : Rat) ≤ 20 := by
        calc (m : Rat) ≤ ((60 : Nat) : Rat) / ((3 : Nat) : Rat) := h1
        _ = 20 := by norm_num
      exact_mod_cast this
    have a2 : (20 : Int) < m + 1 := by
      have : (20 : Rat) < (m : Rat) + 1 := by
        calc (20 : Rat) = ((60 : Nat) : Rat) / ((3 : Nat) : Rat) := by norm_num
        _ < (m : Rat) + 1 := h2
      exact_mod_cast this
    have hm : m = 20 := by omega
    rw [he, hm]
    norm_num

/-- C6 witness at the concrete `[10, 20, 30]` table. -/
theorem c6_duration_sum_and_truncated_mean_witness :
    dfDur ≠ [] ∧
    ∃ m : Int,
      trip_duration_stats dfDur =
        Except.ok ⟨(((dfDur.map (fun t => t.tripDuration)).sum : Nat) : Int), m⟩ ∧
      (m : Rat) ≤ (((dfDur.map (fun t => t.tripDuration)).sum : Nat) : Rat) / (dfDur.length : Rat) ∧
      (((dfDur.map (fun t => t.tripDuration)).sum : Nat) : Rat) / (dfDur.length : Rat) <
        (m : Rat) + 1 :=
  ⟨by decide, c6_duration_sum_and_truncated_mean.1 dfDur (by decide)⟩

/-! ## C3 -/

/-- C3: the Filter Engine returns exactly the rows passing both constraints
ANDed (an absent constraint, the empty string, passes everything); a month
constraint compares the derived month number with `months.index(month) + 1`,
which maps january..june to 1..6; a day constraint compares the derived
capitalized weekday name with `day.title()`, so matching is insensitive to
the case of the requested day name. -/
theorem c3_filter_engine (df : List Trip) (monthF dayF : String) :
    filter_data df (monthF, dayF) =
      df.filter (fun r =>
        (decide (monthF = "") || r.month == monthsList.indexOf monthF + 1) &&
        (decide (dayF = "") || r.day_of_week == strTitle dayF)) ∧
    (∀ r, r ∈ filter_data df (monthF, dayF) ↔
      r ∈ df ∧ (monthF = "" ∨ r.month = monthsList.indexOf monthF + 1) ∧
        (dayF = "" ∨ r.day_of_week = strTitle dayF)) ∧
    filter_data df (monthF, dayF) = filter_data df (monthF, lowerStr dayF) ∧
    (monthF ∈ monthsList →
      ∀ r ∈ filter_data df (monthF, dayF), r.month = monthsList.indexOf monthF + 1) ∧
    (monthsList.indexOf "january" + 1 = 1 ∧ monthsList.indexOf "february" + 1 = 2 ∧
      monthsList.indexOf "march" + 1 = 3 ∧ monthsList.indexOf "april" + 1 = 4 ∧
      monthsList.indexOf "may" + 1 = 5 ∧ monthsList.indexOf "june" + 1 = 6) := by
  have main : filter_data df (monthF, dayF) =
      df.filter (fun r =>
        (decide (monthF = "") || r.month == monthsList.indexOf monthF + 1) &&
        (decide (dayF = "") || r.day_of_week == strTitle dayF)) := by
    by_cases hm : monthF = "" <;> by_cases hd : dayF = "" <;>
      simp [filter_data, hm, hd, List.filter_filter, Bool.and_comm]
  have mem : ∀ r, r ∈ filter_data df (monthF, dayF) ↔
      r ∈ df ∧ (monthF = "" ∨ r.month = monthsList.indexOf monthF + 1) ∧
        (dayF = "" ∨ r.day_of_week = strTitle dayF) := by
    intro r
    rw [main, List.mem_filter]
    simp only [Bool.and_eq_true, Bool.or_eq_true, decide_eq_true_eq, beq_iff_eq]
  refine ⟨main, mem, ?_, ?_, by decide⟩
  · by_cases hd : dayF = ""
    · rw [hd]
      rfl
    · have hd2 : ¬lowerStr dayF = "" := fun he => hd ((lowerStr_eq_empty_iff dayF).mp he)
      simp only [filter_data]
      rw [if_neg hd, if_neg hd2, strTitle_lowerStr]
  · intro hmem r hr
    rcases ((mem r).mp hr).2.1 with he | he
    · rw [he] at hmem
      exact absurd hmem (by decide)
    · exact he

/-- C3 witness: filtering the mixed table by March keeps exactly the March
row, whose derived month is 3. -/
theorem c3_filter_engine_witness :
    ("march" ∈ monthsList) ∧
    (∀ r ∈ filter_data dfMix ("march", ""), r.month = monthsList.indexOf "march" + 1) ∧
    filter_data dfMix ("march", "") = [mkTrip tsMar "C" "Z"] ∧
    filter_data dfMix ("", "MONDAY") = filter_data dfMix ("", lowerStr "MONDAY") :=
  ⟨by decide, (c3_filter_engine dfMix "march" "").2.2.2.1 (by decide), by decide,
    (c3_filter_engine dfMix "" "MONDAY").2.2.1⟩

/-! ## C7 -/

/-- `value_counts` output is sorted by descending count. -/
theorem value_counts_sorted {α : Type} [DecidableEq α] (l : List α) :
    (value_counts l).Sorted (fun a b => b.2 ≤ a.2) := by
  haveI : IsTotal (α × Nat) (fun a b => b.2 ≤ a.2) := ⟨fun a b => le_total b.2 a.2⟩
  haveI : IsTrans (α × Nat) (fun a b => b.2 ≤ a.2) := ⟨fun a b c h1 h2 => le_trans h2 h1⟩
  exact List.sorted_insertionSort _ _

/-- The counts of a `value_counts` table sum to the number of rows counted. -/
theorem value_counts_sum {α : Type} [DecidableEq α] (l : List α) :
    ((value_counts l).map (fun p => p.2)).sum = l.length := by
  have hp : List.Perm (value_counts l) (l.dedup.map (fun v => (v, l.count v))) :=
    List.perm_insertionSort _ _
  have hp2 := (hp.map (fun p : α × Nat => p.2)).sum_eq
  rw [hp2, List.map_map]
  have : (fun p : α × Nat => p.2) ∘ (fun v => (v, l.count v)) = fun v => l.count v := rfl
  rw [this]
  exact List.sum_map_count_dedup_eq_length l

/-- A fully present optional column survives `filterMap` with its length. -/
theorem filterMap_gender_length (df : List Trip) (h : ∀ t ∈ df, (t.gender).isSome) :
    (df.filterMap (fun t => t.gender)).length = df.length := by
  induction df with
  | nil => rfl
  | cons t ts ih =>
    have ht := h t (List.mem_cons_self t ts)
    rcases Option.isSome_iff_exists.mp ht with ⟨g, hg⟩
    rw [List.filterMap_cons, hg]
    simp only [List.length_cons]
    rw [ih (fun u hu => h u (List.mem_cons_of_mem t hu))]

/-- C7: User Stats always reports the per-user-type counts in descending
frequency order, summing to the row count; for `chicago` and `new york` (the
cities whose tables carry the gender column) it additionally reports gender
counts with the same order and total, and for `washington` the gender
breakdown is omitted entirely. -/
theorem c7_user_stats_breakdowns (df : List Trip) (city : String)
    (hcity : city ∈ ["chicago", "new york", "washington"])
    (hg : city ≠ "washington" → ∀ t ∈ df, (t.gender).isSome) :
    ((user_stats df city).typeCounts).Sorted (fun a b => b.2 ≤ a.2) ∧
    (((user_stats df city).typeCounts).map (fun p => p.2)).sum = df.length ∧
    (city = "washington" → (user_stats df city).genderCounts = none) ∧
    (city ≠ "washington" → ∃ g, (user_stats df city).genderCounts = some g ∧
      g.Sorted (fun a b => b.2 ≤ a.2) ∧ (g.map (fun p => p.2)).sum = df.length) := by
  refine ⟨value_counts_sorted _, ?_, ?_, ?_⟩
  · show ((value_counts (df.map (fun t => t.userType))).map (fun p => p.2)).sum = df.length
    rw [value_counts_sum, List.length_map]
  · intro hw
    rw [hw]
    rfl
  · intro hnw
    have hcn : city = "chicago" ∨ city = "new york" := by
      simp only [List.mem_cons, List.mem_singleton] at hcity
      rcases hcity with h1 | h1 | h1
      · exact Or.inl h1
      · exact Or.inr h1
      · rcases h1 with h1 | h1
        · exact absurd h1 hnw
        · cases h1
    refine ⟨value_counts (df.filterMap (fun t => t.gender)), ?_, value_counts_sorted _, ?_⟩
    · show (if city = "chicago" ∨ city = "new york" then
          some (value_counts (df.filterMap (fun t => t.gender))) else none) = _
      rw [if_pos hcn]
    · rw [value_counts_sum, filterMap_gender_length df (hg hnw)]

/-- C7 witness: on a gendered city, both breakdowns exist and the gender
counts sum to the row count. -/
theorem c7_user_stats_breakdowns_witness :
    ("chicago" ∈ ["chicago", "new york", "washington"]) ∧
    (∀ t ∈ dfTie, (t.gender).isSome) ∧
    ∃ g, (user_stats dfTie "chicago").genderCounts = some g ∧
      g.Sorted (fun a b => b.2 ≤ a.2) ∧ (g.map (fun p => p.2)).sum = dfTie.length :=
  ⟨by decide, by decide,
    (c7_user_stats_breakdowns dfTie "chicago" (by decide) (fun _ => by decide)).2.2.2
      (by decide)⟩

/-! ## C8 -/

/-- C8: for a non-empty table, Time Stats succeeds; it reports a month line
iff no month filter was given and a day line iff no day filter was given,
each line carrying a most frequent value of the corresponding derived
column; and it always reports the most frequent start hour rendered on a
1-12 clock with an AM/PM suffix. -/
theorem c8_time_stats_reports (df : List Trip) (monthF dayF : String) (h : df ≠ []) :
    ∃ out, time_stats df (monthF, dayF) = Except.ok out ∧
      (out.monthReport.isSome ↔ monthF = "") ∧
      (out.dayReport.isSome ↔ dayF = "") ∧
      (monthF = "" → ∃ m, m ∈ df.map (fun t => t.month) ∧
        (∀ w, (df.map (fun t => t.month)).count w ≤ (df.map (fun t => t.month)).count m) ∧
        out.monthReport = some (month_name m)) ∧
      (dayF = "" → ∃ d, d ∈ df.map (fun t => t.day_of_week) ∧
        (∀ w, (df.map (fun t => t.day_of_week)).count w ≤
          (df.map (fun t => t.day_of_week)).count d) ∧
        out.dayReport = some d) ∧
      (∃ hr, hr ∈ df.map (fun t => t.hour) ∧
        (∀ w, (df.map (fun t => t.hour)).count w ≤ (df.map (fun t => t.hour)).count hr) ∧
        out.hourReport = format12 hr) ∧
      (∀ n : Nat, ∃ h12, 1 ≤ h12 ∧ h12 ≤ 12 ∧
        format12 n = (if h12 < 10 then "0" ++ toString h12 else toString h12) ++ ":00 " ++
          (if n < 12 then "AM" else "PM")) := by
  have hmn : df.map (fun t => t.month) ≠ [] := fun he => h (List.map_eq_nil_iff.mp he)
  have hdn : df.map (fun t => t.day_of_week) ≠ [] := fun he => h (List.map_eq_nil_iff.mp he)
  have hhn : df.map (fun t => t.hour) ≠ [] := fun he => h (List.map_eq_nil_iff.mp he)
  rcases mode_first_spec natLeB_total natLeB_trans hhn with ⟨hv, hhf, hhm, hhmax, _⟩
  have hfmt : ∀ n : Nat, ∃ h12, 1 ≤ h12 ∧ h12 ≤ 12 ∧
      format12 n = (if h12 < 10 then "0" ++ toString h12 else toString h12) ++ ":00 " ++
        (if n < 12 then "AM" else "PM") := by
    intro n
    refine ⟨if n % 12 = 0 then 12 else n % 12, ?_, ?_, rfl⟩
    · have h12 : n % 12 < 12 := Nat.mod_lt n (by omega)
      split <;> omega
    · have h12 : n % 12 < 12 := Nat.mod_lt n (by omega)
      split <;> omega
  by_cases hm : monthF = "" <;> by_cases hd : dayF = ""
  · rcases mode_first_spec natLeB_total natLeB_trans hmn with ⟨mv, hmf, hmm, hmmax, _⟩
    rcases mode_first_spec strLeB_total strLeB_trans hdn with ⟨dv, hdf, hdm, hdmax, _⟩
    subst hm
    subst hd
    refine ⟨⟨some (month_name mv), some dv, format12 hv⟩, ?_, by simp, by simp,
      fun _ => ⟨mv, hmm, hmmax, rfl⟩, fun _ => ⟨dv, hdm, hdmax, rfl⟩,
      ⟨hv, hhm, hhmax, rfl⟩, hfmt⟩
    simp only [time_stats, hmf, hdf, hhf]
    rfl
  · rcases mode_first_spec natLeB_total natLeB_trans hmn with ⟨mv, hmf, hmm, hmmax, _⟩
    subst hm
    refine ⟨⟨some (month_name mv), none, format12 hv⟩, ?_, by simp, by simp [hd],
      fun _ => ⟨mv, hmm, hmmax, rfl⟩, fun he => absurd he hd,
      ⟨hv, hhm, hhmax, rfl⟩, hfmt⟩
    simp only [time_stats, hmf, hhf, hd]
    rfl
  · rcases mode_first_spec strLeB_total strLeB_trans hdn with ⟨dv, hdf, hdm, hdmax, _⟩
    subst hd
    refine ⟨⟨none, some dv, format12 hv⟩, ?_, by simp [hm], by simp,
      fun he => absurd he hm, fun _ => ⟨dv, hdm, hdmax, rfl⟩,
      ⟨hv, hhm, hhmax, rfl⟩, hfmt⟩
    simp only [time_stats, hdf, hhf, hm]
    rfl
  · refine ⟨⟨none, none, format12 hv⟩, ?_, by simp [hm], by simp [hd],
      fun he => absurd he hm, fun he => absurd he hd,
      ⟨hv, hhm, hhmax, rfl⟩, hfmt⟩
    simp only [time_stats, hhf, hm, hd]
    rfl

/-- C8 witness: on a concrete non-empty table with a month filter and no
day filter, the month line is skipped, the day line is present, and the
hour line is present. -/
theorem c8_time_stats_reports_witness :
    dfMix ≠ [] ∧
    ∃ out, time_stats dfMix ("march", "") = Except.ok out ∧
      (out.monthReport.isSome ↔ ("march" : String) = "") ∧
      (out.dayReport.isSome ↔ ("" : String) = "") ∧
      (("march" : String) = "" → ∃ m, m ∈ dfMix.map (fun t => t.month) ∧
        (∀ w, (dfMix.map (fun t => t.month)).count w ≤
          (dfMix.map (fun t => t.month)).count m) ∧
        out.monthReport = some (month_name m)) ∧
      (("" : String) = "" → ∃ d, d ∈ dfMix.map (fun t => t.day_of_week) ∧
        (∀ w, (dfMix.map (fun t => t.day_of_week)).count w ≤
          (dfMix.map (fun t => t.day_of_week)).count d) ∧
        out.dayReport = some d) ∧
      (∃ hr, hr ∈ dfMix.map (fun t => t.hour) ∧
        (∀ w, (dfMix.map (fun t => t.hour)).count w ≤
          (dfMix.map (fun t => t.hour)).count hr) ∧
        out.hourReport = format12 hr) ∧
      (∀ n : Nat, ∃ h12, 1 ≤ h12 ∧ h12 ≤ 12 ∧
        format12 n = (if h12 < 10 then "0" ++ toString h12 else toString h12) ++ ":00 " ++
          (if n < 12 then "AM" else "PM")) :=
  ⟨by decide, c8_time_stats_reports dfMix "march" "" (by decide)⟩

/-! ## C9 -/

/-- C9: a city outside the `CITY_DATA` enumeration makes `load_data` fail
on the dictionary access (`KeyError` — the loader's unknown-city failure)
before any table is read, so no table is ever returned; a city inside the
enumeration yields the full table of its file with the three derived
columns added to every row. -/
theorem c9_loader_unknown_city (env : String → List RawTrip) (city : String) :
    (city ∉ ["chicago", "new york", "washington"] →
      load_data env city = Except.error PyError.keyError ∧
      ∀ df, load_data env city ≠ Except.ok df) ∧
    (city ∈ ["chicago", "new york", "washington"] →
      ∃ fname, CITY_DATA.lookup city = some fname ∧
        load_data env city = Except.ok ((env fname).map addDerived)) ∧
    (∀ r : RawTrip, (addDerived r).toRawTrip = r ∧
      (addDerived r).month = r.startTime.month ∧
      (addDerived r).day_of_week = dayName r.startTime ∧
      (addDerived r).hour = r.startTime.hour) := by
  refine ⟨?_, ?_, fun r => ⟨rfl, rfl, rfl, rfl⟩⟩
  · intro hnot
    have h1 : ¬(city = "chicago") := fun e => hnot (by rw [e]; decide)
    have h2 : ¬(city = "new york") := fun e => hnot (by rw [e]; decide)
    have h3 : ¬(city = "washington") := fun e => hnot (by rw [e]; decide)
    have b1 : (city == "chicago") = false := beq_eq_false_iff_ne.mpr h1
    have b2 : (city == "new york") = false := beq_eq_false_iff_ne.mpr h2
    have b3 : (city == "washington") = false := beq_eq_false_iff_ne.mpr h3
    have hlk : CITY_DATA.lookup city = none := by
      simp [CITY_DATA, List.lookup, b1, b2, b3]
    constructor
    · simp [load_data, hlk]
    · intro df
      simp [load_data, hlk]
  · intro hmem
    have hor : city = "chicago" ∨ city = "new york" ∨ city = "washington" := by
      simpa using hmem
    rcases hor with rfl | rfl | rfl
    · exact ⟨"chicago.csv", rfl, rfl⟩
    · exact ⟨"new_york_city.csv", rfl, rfl⟩
    · exact ⟨"washington.csv", rfl, rfl⟩

/-- C9 witness: `boston` fails with the key error; `chicago` loads its file
in full. -/
theorem c9_loader_unknown_city_witness :
    ("boston" ∉ ["chicago", "new york", "washington"]) ∧
    load_data (fun _ => []) "boston" = Except.error PyError.keyError ∧
    ("chicago" ∈ ["chicago", "new york", "washington"]) ∧
    load_data (fun _ => [mkRaw ts0 "A" "X" 10 "Subscriber" none]) "chicago" =
      Except.ok [addDerived (mkRaw ts0 "A" "X" 10 "Subscriber" none)] := by
  refine ⟨by decide, ((c9_loader_unknown_city (fun _ => []) "boston").1 (by decide)).1,
    by decide, ?_⟩
  rcases (c9_loader_unknown_city (fun _ => [mkRaw ts0 "A" "X" 10 "Subscriber" none])
      "chicago").2.1 (by decide) with ⟨f, hf, he⟩
  simpa using he

/-! ## C10 -/

/-- C10: the driver's weekday allow-list is exactly the six names
monday/tuesday/wednesday/thursday/friday/sunday, matched against the
lower-cased answer, so acceptance is case-insensitive; `saturday` (in any
casing) is never accepted, and no accepted answer can title-case to
`Saturday`, so the driver can never hand a Saturday filter to the core. -/
theorem c10_saturday_never_accepted :
    day_accepted "saturday" = false ∧
    (∀ s, lowerStr s = "saturday" → day_accepted s = false) ∧
    (∀ s, day_accepted s = day_accepted (lowerStr s)) ∧
    (∀ s, day_accepted s = true ↔ lowerStr s ∈ dayAllowList) ∧
    dayAllowList = ["monday", "tuesday", "wednesday", "thursday", "friday", "sunday"] ∧
    (∀ s, day_accepted s = true → strTitle s ≠ "Saturday") := by
  have hiff : ∀ s, day_accepted s = true ↔ lowerStr s ∈ dayAllowList := by
    intro s
    unfold day_accepted
    simp [List.contains_eq_any_beq, List.any_eq_true, beq_iff_eq]
  refine ⟨by decide, ?_, ?_, hiff, rfl, ?_⟩
  · intro s hs
    unfold day_accepted
    rw [hs]
    decide
  · intro s
    unfold day_accepted
    rw [lowerStr_lowerStr]
  · intro s hs
    have ht : strTitle s = strTitle (lowerStr s) := (strTitle_lowerStr s).symm
    have hm : lowerStr s = "monday" ∨ lowerStr s = "tuesday" ∨ lowerStr s = "wednesday" ∨
        lowerStr s = "thursday" ∨ lowerStr s = "friday" ∨ lowerStr s = "sunday" := by
      simpa [dayAllowList] using (hiff s).mp hs
    rcases hm with h1 | h1 | h1 | h1 | h1 | h1 <;> rw [ht, h1] <;> decide

/-- C10 witness: `SATURDAY` lower-cases to `saturday` and is rejected, while
another valid weekday in the same casing style is accepted. -/
theorem c10_saturday_never_accepted_witness :
    lowerStr "SATURDAY" = "saturday" ∧ day_accepted "SATURDAY" = false ∧
    day_accepted "MONDAY" = true :=
  ⟨by decide, c10_saturday_never_accepted.2.1 "SATURDAY" (by decide), by decide⟩
